import Mathlib

/-!
Verification of the retrieval-augmented chatbot backend
(`netlify/functions/chatbot.js`, `netlify/functions/firestore.js`, and an
earlier unnamed handler variant).

The JavaScript is shallowly embedded: pure helpers become Lean functions on
`List Char` / `String` / `ℚ`; the module-level mutable `store` becomes an
explicit `Store` value threaded through the functions; every `await`ed
external call (embedding API, generation API, file system) is an oracle
stored in an `Env` record, returning `Except String _` so that a thrown
JavaScript exception is an `.error`.  JavaScript numbers are idealised as
rationals (inputs) and reals (cosine scores, which involve square roots).
-/

/-! ### Whitespace normalisation

`chunkText` post-processes every chunk with
`t.replace(/\s+/g, ' ').trim()` and drops chunks that are empty afterwards
(`.filter(Boolean)`).  `isWS` models the regexp class `\s` on the ASCII
whitespace characters (the Unicode members of `\s` play no role in any
claim). -/

def isWS (c : Char) : Bool :=
  c = ' ' || c = '\t' || c = '\n' || c = '\r' || c = '\x0b' || c = '\x0c'

/-- State machine for `replace(/\s+/g, ' ')`: the `Bool` argument records
whether the previous character was whitespace (in which case further
whitespace characters extend the same match and produce no output). -/
def collapseAux : Bool → List Char → List Char
  | _, [] => []
  | prevWS, c :: cs =>
    if isWS c then
      if prevWS then collapseAux true cs else ' ' :: collapseAux true cs
    else c :: collapseAux false cs

/-- Model of `String.prototype.replace(/\s+/g, ' ')`: every maximal run of
whitespace becomes a single space. -/
def collapseWS (l : List Char) : List Char :=
  collapseAux false l

/-- Model of `String.prototype.trim()`: strip leading and trailing
whitespace. -/
def trimChars (l : List Char) : List Char :=
  ((l.dropWhile isWS).reverse.dropWhile isWS).reverse

/-- The per-chunk normalisation `t => t.replace(/\s+/g, ' ').trim()` from
`chunkText`. -/
def normalizeChunk (l : List Char) : List Char :=
  trimChars (collapseWS l)

/-- Model of `String.prototype.trim()` at the `String` level. -/
def trimStr (s : String) : String :=
  ⟨trimChars s.data⟩

/-! ### Chunker (`chunkText`, chatbot.js lines 29–38)

The `while (i < text.length)` loop pushes `text.slice(i, min(i+size, len))`
and advances `i += size - overlap`.  Because the slice taken at position
`i` is `take size` of `drop i text`, the loop is the recursion below on the
remaining suffix.  When `overlap ≥ size` the JavaScript loop never
terminates (`i` does not increase); the model returns `[]` in that case,
and every theorem below assumes `overlap < size`. -/

def rawChunksF : Nat → List Char → Nat → Nat → List (List Char)
  | 0, _, _, _ => []
  | fuel + 1, text, size, overlap =>
    if text = [] ∨ size ≤ overlap then []
    else text.take size :: rawChunksF fuel (text.drop (size - overlap)) size overlap

/-- The sliding-window loop of `chunkText`.  `text.length` is enough fuel
because every iteration of the loop consumes at least one character
(`size - overlap ≥ 1` whenever the loop iterates more than once). -/
def rawChunks (text : List Char) (size overlap : Nat) : List (List Char) :=
  rawChunksF text.length text size overlap

theorem rawChunksF_congr :
    ∀ (f g : Nat) (text : List Char) (size overlap : Nat),
      text.length ≤ f → text.length ≤ g →
      rawChunksF f text size overlap = rawChunksF g text size overlap := by
  intro f
  induction f with
  | zero =>
    intro g text size overlap hf _
    have : text = [] := List.eq_nil_of_length_eq_zero (Nat.le_zero.mp hf)
    subst this
    cases g <;> rfl
  | succ f ih =>
    intro g text size overlap hf hg
    rcases g with _ | g
    · have : text = [] := List.eq_nil_of_length_eq_zero (Nat.le_zero.mp hg)
      subst this
      rfl
    · rcases text with _ | ⟨c, t⟩
      · rfl
      · simp only [rawChunksF]
        by_cases hguard : (c :: t) = [] ∨ size ≤ overlap
        · rw [if_pos hguard, if_pos hguard]
        · rw [if_neg hguard, if_neg hguard]
          push_neg at hguard
          obtain ⟨hne, hos⟩ := hguard
          have hlen : ((c :: t).drop (size - overlap)).length = t.length + 1 - (size - overlap) := by
            simp only [List.length_drop, List.length_cons]
          have hdf : ((c :: t).drop (size - overlap)).length ≤ f := by
            rw [hlen]
            simp only [List.length_cons] at hf
            omega
          have hdg : ((c :: t).drop (size - overlap)).length ≤ g := by
            rw [hlen]
            simp only [List.length_cons] at hg
            omega
          rw [ih g _ _ _ hdf hdg]

/-- `chunkText` on character lists: raw sliding windows, each normalised,
empty results dropped (`.map(t => t.replace(/\s+/g,' ').trim()).filter(Boolean)`). -/
def chunkTextL (text : List Char) (size overlap : Nat) : List (List Char) :=
  ((rawChunks text size overlap).map normalizeChunk).filter (fun l => l ≠ [])

/-- `chunkText(text, size = 1000, overlap = 200)` at the `String` level. -/
def chunkText (text : String) (size : Nat := 1000) (overlap : Nat := 200) :
    List String :=
  (chunkTextL text.data size overlap).map (fun l => (⟨l⟩ : String))

/-- Reassembly of the sliding windows: the first window, followed by every
later window with its first `overlap` characters (the part shared with its
predecessor) removed. -/
def reassembleRaw (chunks : List (List Char)) (overlap : Nat) : List Char :=
  match chunks with
  | [] => []
  | c :: rest => c ++ (rest.map (fun x => x.drop overlap)).flatten

/-- Unfolding equation for `rawChunks`: it is exactly the source's loop. -/
theorem rawChunks_eq (text : List Char) (size overlap : Nat) :
    rawChunks text size overlap =
      if text = [] ∨ size ≤ overlap then []
      else text.take size :: rawChunks (text.drop (size - overlap)) size overlap := by
  rcases text with _ | ⟨c, t⟩
  · simp [rawChunks, rawChunksF]
  · show rawChunksF (t.length + 1) (c :: t) size overlap = _
    simp only [rawChunksF]
    by_cases hguard : (c :: t) = [] ∨ size ≤ overlap
    · rw [if_pos hguard, if_pos hguard]
    · rw [if_neg hguard, if_neg hguard]
      push_neg at hguard
      obtain ⟨hne, hos⟩ := hguard
      show _ = _ :: rawChunksF ((c :: t).drop (size - overlap)).length _ _ _
      congr 1
      apply rawChunksF_congr
      · simp only [List.length_drop, List.length_cons]
        omega
      · exact le_refl _

/-- The number of raw sliding windows is `⌈L / (size − overlap)⌉`
(equivalently `(L + step − 1) / step` in natural division). -/
theorem rawChunks_length (text : List Char) (size overlap : Nat) :
    overlap < size →
      (rawChunks text size overlap).length =
        (text.length + (size - overlap) - 1) / (size - overlap) := by
  generalize hn : text.length = n
  induction n using Nat.strong_induction_on generalizing text with
  | _ n ih =>
    intro h
    rw [rawChunks_eq]
    by_cases hguard : text = [] ∨ size ≤ overlap
    · rcases hguard with hnil | hos
      · subst hnil
        simp only [List.length_nil] at hn
        subst hn
        rw [if_pos (Or.inl rfl)]
        simp only [List.length_nil]
        rw [Nat.div_eq_of_lt (by omega)]
      · omega
    · rw [if_neg hguard]
      push_neg at hguard
      obtain ⟨hne, _⟩ := hguard
      have hL : 1 ≤ text.length := by
        rcases text with _ | ⟨c, t⟩
        · exact absurd rfl hne
        · simp [List.length_cons]
      have hlt : (text.drop (size - overlap)).length < n := by
        simp only [List.length_drop]
        omega
      have hrec := ih (text.drop (size - overlap)).length hlt _ rfl h
      simp only [List.length_cons, hrec, List.length_drop, hn]
      set d := size - overlap with hd
      have hdpos : 0 < d := by omega
      rcases le_or_lt n d with hle | hltn
      · have h1 : n - d = 0 := by omega
        have h2 : n + d - 1 = (n - 1) + d := by omega
        rw [h1, h2, Nat.add_div_right _ hdpos]
        rw [Nat.div_eq_of_lt (by omega), Nat.div_eq_of_lt (by omega)]
      · have h2 : n + d - 1 = (n - 1) + d := by omega
        have h3 : n - d + d - 1 = n - 1 := by omega
        rw [h2, h3, Nat.add_div_right _ hdpos]

/-- Dropping the first `overlap` characters of every window and flattening
recovers the input with its own first `overlap` characters removed. -/
theorem flatten_map_drop_rawChunks (text : List Char) (size overlap : Nat) :
    overlap < size →
      ((rawChunks text size overlap).map (fun x => x.drop overlap)).flatten =
        text.drop overlap := by
  generalize hn : text.length = n
  induction n using Nat.strong_induction_on generalizing text with
  | _ n ih =>
    intro h
    rw [rawChunks_eq]
    by_cases hguard : text = [] ∨ size ≤ overlap
    · rcases hguard with hnil | hos
      · subst hnil; simp
      · omega
    · rw [if_neg hguard]
      push_neg at hguard
      obtain ⟨hne, _⟩ := hguard
      have hL : 1 ≤ text.length := by
        rcases text with _ | ⟨c, t⟩
        · exact absurd rfl hne
        · simp [List.length_cons]
      have hlt : (text.drop (size - overlap)).length < n := by
        simp only [List.length_drop]
        omega
      have hrec := ih (text.drop (size - overlap)).length hlt _ rfl h
      simp only [List.map_cons, List.flatten_cons, hrec]
      rw [List.drop_take, List.drop_drop]
      have h1 : size - overlap + overlap = size := by omega
      have h2 : size = overlap + (size - overlap) := by omega
      rw [h1, h2, ← List.drop_drop]
      have h3 : overlap + (size - overlap) - overlap = size - overlap := by omega
      rw [h3]
      exact List.take_append_drop _ _

/-- Reassembling the raw windows (first window kept whole, later windows
stripped of their `overlap`-character prefix) recovers the input exactly. -/
theorem reassembleRaw_rawChunks (size overlap : Nat) (h : overlap < size)
    (text : List Char) :
    reassembleRaw (rawChunks text size overlap) overlap = text := by
  rw [rawChunks_eq]
  by_cases hguard : text = [] ∨ size ≤ overlap
  · rcases hguard with hnil | hos
    · subst hnil; simp [reassembleRaw]
    · omega
  · rw [if_neg hguard]
    simp only [reassembleRaw]
    rw [flatten_map_drop_rawChunks _ size overlap h]
    rw [List.drop_drop]
    have h1 : size - overlap + overlap = size := by omega
    rw [h1]
    exact List.take_append_drop _ _

/-! ### Claims C2 and C3: chunker properties -/

/-- C2, counterexample.  The claim says the chunker produces
`⌈(L−O)/(S−O)⌉` chunks "within rounding".  For the 32-character text of
8 letters followed by 24 spaces, with `size = 10` and `overlap = 2`, the
formula gives `⌈30/8⌉ = 4`, but the chunker returns a single chunk: three
of the four sliding windows are whitespace-only and are dropped by
`.filter(Boolean)` after normalisation.  The count is off by 3, beyond any
±1 rounding slack. -/
theorem chunker_count_formula_counterexample :
    (chunkTextL "aaaaaaaa                        ".data 10 2).length = 1 ∧
    (("aaaaaaaa                        ".data.length - 2) + (10 - 2) - 1) / (10 - 2) = 4 ∧
    (chunkTextL "aaaaaaaa                        ".data 10 2).length + 1 <
      (("aaaaaaaa                        ".data.length - 2) + (10 - 2) - 1) / (10 - 2) := by
  refine ⟨by decide, by decide, by decide⟩

/-- C2 (amended): for `overlap < size` the chunker's raw sliding-window
count is exactly `⌈L/(size−overlap)⌉` (in natural-number division,
`(L + step − 1)/step`), the final chunk count never exceeds it (windows
that normalise to the empty string are dropped), and the raw windows —
with each window after the first stripped of its `overlap`-character
prefix — concatenate back to the original text exactly.  Reconstruction of
the whitespace-normalised text from the final normalised chunks does not
hold in general, and the claim's count formula `⌈(L−O)/(S−O)⌉` is wrong
even allowing ±1. -/
theorem chunker_count_and_reassembly (text : List Char) (size overlap : Nat)
    (h : overlap < size) :
    (rawChunks text size overlap).length
        = (text.length + (size - overlap) - 1) / (size - overlap)
      ∧ (chunkTextL text size overlap).length ≤ (rawChunks text size overlap).length
      ∧ reassembleRaw (rawChunks text size overlap) overlap = text := by
  refine ⟨rawChunks_length text size overlap h, ?_, reassembleRaw_rawChunks size overlap h text⟩
  unfold chunkTextL
  calc (((rawChunks text size overlap).map normalizeChunk).filter (fun l => l ≠ [])).length
      ≤ ((rawChunks text size overlap).map normalizeChunk).length :=
        List.length_filter_le _ _
    _ = (rawChunks text size overlap).length := List.length_map _ _

theorem chunker_count_and_reassembly_witness :
    ((2:Nat) < 10) ∧
    ((rawChunks "abcdefghij abc".data 10 2).length
        = ("abcdefghij abc".data.length + (10 - 2) - 1) / (10 - 2)
      ∧ (chunkTextL "abcdefghij abc".data 10 2).length
          ≤ (rawChunks "abcdefghij abc".data 10 2).length
      ∧ reassembleRaw (rawChunks "abcdefghij abc".data 10 2) 2 = "abcdefghij abc".data) :=
  ⟨by decide, chunker_count_and_reassembly "abcdefghij abc".data 10 2 (by decide)⟩

/-- C3, counterexample.  The claim says a non-empty text of length at most
the chunk size yields exactly one chunk.  The 9-character text
"abcdefghi" with `size = 10` and `overlap = 2` has length 9 ≤ 10, yet the
chunker produces TWO chunks ("abcdefghi" and "i"): the loop advances by
`size − overlap = 8 < 9`, so a second window is emitted. -/
theorem chunker_single_chunk_counterexample :
    "abcdefghi".data.length ≤ 10 ∧ (chunkTextL "abcdefghi".data 10 2).length = 2 := by
  refine ⟨by decide, by decide⟩

/-- C3 (amended): the length bound that guarantees a single chunk is
`size − overlap`, not `size`: every text of length at most
`size − overlap` whose whitespace-normalisation is non-empty produces
exactly one chunk (the loop runs once and the single window is the whole
text).  Length ≤ `size` does NOT suffice — see the counterexample, where
a 9-character text yields a second window.  (The bound is sufficient, not
necessary: a longer text whose later windows are whitespace-only can
still normalise down to one chunk.) -/
theorem chunker_single_chunk (text : List Char) (size overlap : Nat)
    (h1 : overlap < size) (h2 : text.length ≤ size - overlap)
    (h3 : normalizeChunk text ≠ []) :
    chunkTextL text size overlap = [normalizeChunk text] := by
  have hne : text ≠ [] := by
    intro hnil
    exact h3 (by rw [hnil]; rfl)
  have hraw : rawChunks text size overlap = [text] := by
    rw [rawChunks_eq, if_neg (by push_neg; exact ⟨hne, h1⟩)]
    rw [List.drop_eq_nil_of_le (by omega)]
    rw [List.take_of_length_le (by omega)]
    rw [rawChunks_eq]
    simp
  unfold chunkTextL
  rw [hraw]
  simp [h3]

theorem chunker_single_chunk_witness :
    ((2:Nat) < 10 ∧ "hello".data.length ≤ 10 - 2 ∧ normalizeChunk "hello".data ≠ []) ∧
    chunkTextL "hello".data 10 2 = [normalizeChunk "hello".data] :=
  ⟨⟨by decide, by decide, by decide⟩,
    chunker_single_chunk "hello".data 10 2 (by decide) (by decide) (by decide)⟩

/-! ### Cosine similarity (`cosine`, chatbot.js lines 61–69, and
`cosineSimilarity`, the unnamed variant's lines 84–92)

Both functions run one loop accumulating `dot`, `na` (sum of squares of
the first vector's entries) and `nb`.  `cosine` iterates to
`min(a.length, b.length)`; this is the `zip` below.  Vector entries are
modelled as rationals, the final score (which divides by real square
roots) as a real.  `cosine` guards with `(na && nb) ? … : 0` — the
accumulated sums of squares are non-negative, so JavaScript truthiness of
`na && nb` is exactly `na ≠ 0 ∧ nb ≠ 0`.  `cosineSimilarity` has no guard:
when its denominator is zero the JavaScript division produces `NaN`, which
the `Option` models as `none`. -/

def cosAcc (a b : List ℚ) : ℚ × ℚ × ℚ :=
  (a.zip b).foldl
    (fun acc p => (acc.1 + p.1 * p.2, acc.2.1 + p.1 * p.1, acc.2.2 + p.2 * p.2))
    (0, 0, 0)

noncomputable def cosine (a b : List ℚ) : ℝ :=
  let acc := cosAcc a b
  if acc.2.1 ≠ 0 ∧ acc.2.2 ≠ 0 then
    ((acc.1 : ℚ) : ℝ) / (Real.sqrt ((acc.2.1 : ℚ) : ℝ) * Real.sqrt ((acc.2.2 : ℚ) : ℝ))
  else 0

/-- The unnamed variant's `cosineSimilarity`, which divides without any
zero guard.  A zero denominator makes the JavaScript division `NaN`
(modelled as `none`).  (That variant indexes `vecB` by `vecA`'s indices;
for the equal-length vectors all claims concern, this is the same `zip`.) -/
noncomputable def cosineSimilarity (a b : List ℚ) : Option ℝ :=
  let acc := cosAcc a b
  let denom := Real.sqrt ((acc.2.1 : ℚ) : ℝ) * Real.sqrt ((acc.2.2 : ℚ) : ℝ)
  if denom = 0 then none else some (((acc.1 : ℚ) : ℝ) / denom)

/-- Sum of squares of a full vector (the mathematical "zero norm" test:
`sumSq v = 0` iff `v` has norm zero, including `v = []`). -/
def sumSq (l : List ℚ) : ℚ :=
  (l.map (fun x => x * x)).sum

/-- Closed form of the accumulator loop. -/
theorem cosAcc_eq (a b : List ℚ) :
    cosAcc a b =
      (((a.zip b).map (fun p => p.1 * p.2)).sum,
       ((a.zip b).map (fun p => p.1 * p.1)).sum,
       ((a.zip b).map (fun p => p.2 * p.2)).sum) := by
  have key : ∀ (l : List (ℚ × ℚ)) (x y z : ℚ),
      l.foldl (fun acc p => (acc.1 + p.1 * p.2, acc.2.1 + p.1 * p.1, acc.2.2 + p.2 * p.2))
          (x, y, z)
        = (x + (l.map (fun p => p.1 * p.2)).sum,
           y + (l.map (fun p => p.1 * p.1)).sum,
           z + (l.map (fun p => p.2 * p.2)).sum) := by
    intro l
    induction l with
    | nil => intro x y z; simp
    | cons p l ih =>
      intro x y z
      simp only [List.foldl_cons, List.map_cons, List.sum_cons, ih]
      refine Prod.ext ?_ (Prod.ext ?_ ?_) <;> simp <;> ring
  unfold cosAcc
  rw [key]
  simp

theorem sumSq_nonneg (l : List ℚ) : 0 ≤ sumSq l := by
  unfold sumSq
  induction l with
  | nil => simp
  | cons x l ih =>
    simp only [List.map_cons, List.sum_cons]
    nlinarith [mul_self_nonneg x]

theorem eq_zero_of_sumSq_eq_zero {l : List ℚ} (h : sumSq l = 0) :
    ∀ x ∈ l, x = 0 := by
  induction l with
  | nil => simp
  | cons y l ih =>
    have hy : 0 ≤ y * y := mul_self_nonneg y
    have hl : 0 ≤ sumSq l := sumSq_nonneg l
    have hsum : y * y + sumSq l = 0 := by
      unfold sumSq at h ⊢
      simpa [List.map_cons, List.sum_cons] using h
    have hy0 : y * y = 0 := by linarith
    have hl0 : sumSq l = 0 := by linarith
    intro x hx
    rcases List.mem_cons.mp hx with hxy | hxl
    · rw [hxy]
      exact mul_self_eq_zero.mp hy0
    · exact ih hl0 x hxl

/-- If one of the two vectors has zero norm, the corresponding accumulated
sum of squares over the zipped prefix is zero. -/
theorem cosAcc_na_eq_zero {a : List ℚ} (b : List ℚ) (h : sumSq a = 0) :
    (cosAcc a b).2.1 = 0 := by
  rw [cosAcc_eq]
  apply List.sum_eq_zero
  intro x hx
  rcases List.mem_map.mp hx with ⟨p, hp, rfl⟩
  have := (List.of_mem_zip hp).1
  rw [eq_zero_of_sumSq_eq_zero h p.1 this, zero_mul]

theorem cosAcc_nb_eq_zero (a : List ℚ) {b : List ℚ} (h : sumSq b = 0) :
    (cosAcc a b).2.2 = 0 := by
  rw [cosAcc_eq]
  apply List.sum_eq_zero
  intro x hx
  rcases List.mem_map.mp hx with ⟨p, hp, rfl⟩
  have := (List.of_mem_zip hp).2
  rw [eq_zero_of_sumSq_eq_zero h p.2 this, zero_mul]

/-- C5 (amended): in chatbot.js, whenever either argument has zero norm —
in particular for empty vectors — `cosine` takes its guarded branch and
returns 0 without dividing. -/
theorem cosine_zero_norm (a b : List ℚ) (h : sumSq a = 0 ∨ sumSq b = 0) :
    cosine a b = 0 := by
  unfold cosine
  rcases h with ha | hb
  · rw [if_neg]
    intro hcon
    exact hcon.1 (cosAcc_na_eq_zero b ha)
  · rw [if_neg]
    intro hcon
    exact hcon.2 (cosAcc_nb_eq_zero a hb)

theorem cosine_zero_norm_witness :
    (sumSq [(0:ℚ), 0] = 0 ∨ sumSq [(1:ℚ), 2] = 0) ∧ cosine [(0:ℚ), 0] [(1:ℚ), 2] = 0 :=
  ⟨Or.inl (by norm_num [sumSq]), cosine_zero_norm _ _ (Or.inl (by norm_num [sumSq]))⟩

/-- C5, counterexample.  The claim covers "the cosine-similarity function"
of both files, but the unnamed variant's `cosineSimilarity` has no
zero-norm guard: on the zero vectors `[0]` and `[0]` it divides 0 by 0 and
yields `NaN` (`none` in the model), not 0. -/
theorem cosineSimilarity_zero_norm_counterexample :
    cosineSimilarity [(0:ℚ)] [(0:ℚ)] = none ∧
      cosineSimilarity [(0:ℚ)] [(0:ℚ)] ≠ some 0 := by
  have hacc : cosAcc [(0:ℚ)] [(0:ℚ)] = (0, 0, 0) := by
    rw [cosAcc_eq]
    norm_num
  have hmain : cosineSimilarity [(0:ℚ)] [(0:ℚ)] = none := by
    unfold cosineSimilarity
    rw [hacc]
    norm_num
  exact ⟨hmain, by rw [hmain]; simp⟩

/-! ### Data model and external-call environment

The module-level mutable `store` of chatbot.js (`ingested`, `vectors`,
`history`) becomes the `Store` record, threaded explicitly.  The awaited
external calls — the embedding fetch, the generation fetch, and the file
system — are oracles in `Env`; a rejected fetch / thrown exception is an
`.error` carrying the message text the code would put in the `Error`. -/

structure Turn where
  role : String
  text : String
deriving DecidableEq

structure EmbChunk where
  embedding : List ℚ
  text : String
  source : String
deriving DecidableEq

/-- One scored record `{ ...v, score }` built by `retrieveTopK`. -/
structure Scored where
  embedding : List ℚ
  text : String
  source : String
  score : ℝ

structure Store where
  ingested : Bool
  vectors : List EmbChunk
  history : List (String × List Turn)
deriving DecidableEq

/-- Shape of the generation API's JSON answer, as navigated by
`json?.candidates?.[0]?.content?.parts` — every step may be absent. -/
structure GenPart where
  text : Option String
deriving DecidableEq

structure GenContent where
  parts : Option (List GenPart)
deriving DecidableEq

structure GenCandidate where
  content : Option GenContent
deriving DecidableEq

structure GenResponse where
  candidates : Option (List GenCandidate)
deriving DecidableEq

structure Env where
  hasApiKey : Bool
  docsExists : Bool
  files : List (String × String)
  embedApi : String → String → Except String (List ℚ)
  genApi : String → Except String GenResponse

/-- Result of `JSON.parse(event.body || '{}')` followed by destructuring
`{ message, sessionId }`: either the parse throws, or each field is
present or absent. -/
inductive ReqBody
  | malformed
  | fields (message : Option String) (sessionId : Option String)
deriving DecidableEq

structure Event where
  httpMethod : String
  body : ReqBody
deriving DecidableEq

/-- Response bodies, kept structured instead of re-modelling
`JSON.stringify`: a plain-text body, a `{ error }` JSON body, or a
`{ reply }` JSON body. -/
inductive RespBody
  | text (s : String)
  | jsonError (e : String)
  | jsonReply (r : String)
deriving DecidableEq

structure HttpResponse where
  statusCode : Nat
  body : RespBody
deriving DecidableEq

/-- JavaScript truthiness test used on the destructured string fields:
`!x` holds when the field is absent or the empty string. -/
def falsy (o : Option String) : Bool :=
  o.getD "" = ""

/-- Model of `Array.prototype.slice(-n)`: the last `n` elements (the whole
list when it is shorter than `n`). -/
def takeLast {α : Type} (n : Nat) (l : List α) : List α :=
  l.drop (l.length - n)

/-- Model of `Map.prototype.set` on an association list: replace the
binding if the key is present, append it otherwise. -/
def setKey {α : Type} (m : List (String × α)) (k : String) (v : α) :
    List (String × α) :=
  match m with
  | [] => [(k, v)]
  | (k', v') :: rest => if k' = k then (k, v) :: rest else (k', v') :: setKey rest k v

/-- The `/\.(pdf|txt)$/i` filename filter of `ensureIngested`. -/
def hasDocExt (name : String) : Bool :=
  ".pdf".data.isSuffixOf (name.data.map Char.toLower) ||
  ".txt".data.isSuffixOf (name.data.map Char.toLower)

def SYSTEM_PROMPT : String :=
  "You are a concise, helpful assistant for Teja Vishnu Vardhan Boddu.\nUse CONTEXT snippets to answer. If context is insufficient, state that briefly and proceed with your best answer.\nWhen using a snippet, lightly cite it like [filename]."

def MAX_TURNS : Nat := 40

/-! ### Generator-client reply extraction (chatbot.js lines 138–142) -/

/-- The first candidate's parts, `(json?.candidates?.[0]?.content?.parts || [])`. -/
def firstParts (r : GenResponse) : List GenPart :=
  ((((r.candidates.getD []).head?).bind (fun c => c.content)).bind
    (fun c => c.parts)).getD []

/-- Reply extraction of chatbot.js:
`parts.map(p => p.text || '').join('').trim() || 'No reply.'`. -/
def extractReply (r : GenResponse) : String :=
  let s := trimStr (String.join ((firstParts r).map (fun p => p.text.getD "")))
  if s = "" then "No reply." else s

/-- Reply extraction of the unnamed variant (part_000 line 143):
`result?.candidates?.[0]?.content?.parts?.[0]?.text || "I couldn't generate a response."` —
only the FIRST fragment, different fallback. -/
def part000Extract (r : GenResponse) : String :=
  let t := (((firstParts r).head?).bind (fun p => p.text)).getD ""
  if t = "" then "I couldn't generate a response." else t

/-! ### Embedding call and ingestion (chatbot.js lines 40–59 and 72–102) -/

/-- `embedRaw`: the fetch either rejects with a non-ok status (the code
throws "Embeddings API error …") or produces a vector; the code then
throws "Empty embedding vector" when the vector is missing or empty. -/
def embedRawE (env : Env) (text taskType : String) : Except String (List ℚ) :=
  match env.embedApi text taskType with
  | .error e => .error ("Embeddings API error " ++ e)
  | .ok vec => if vec = [] then .error "Empty embedding vector" else .ok vec

/-- The inner `for (const chunk of chunks)` loop of `ensureIngested`:
embed each chunk and push it onto `store.vectors`.  A thrown embedding
error propagates, leaving the vectors pushed so far in place (the real
mutation survives the exception). -/
def ingestChunks (env : Env) (source : String) (chunks : List String)
    (st : Store) : Except String Unit × Store :=
  match chunks with
  | [] => (.ok (), st)
  | c :: rest =>
    match embedRawE env c "RETRIEVAL_DOCUMENT" with
    | .error e => (.error e, st)
    | .ok v =>
      ingestChunks env source rest
        { st with vectors := st.vectors ++ [⟨v, c, source⟩] }

/-- The outer `for (const file of files)` loop: skip empty texts
(`if (!text) continue`), chunk with the default `size`/`overlap`, embed. -/
def ingestFiles (env : Env) (files : List (String × String)) (st : Store) :
    Except String Unit × Store :=
  match files with
  | [] => (.ok (), st)
  | (name, text) :: rest =>
    if text = "" then ingestFiles env rest st
    else
      match ingestChunks env name (chunkText text) st with
      | (.error e, st') => (.error e, st')
      | (.ok _, st') => ingestFiles env rest st'

/-- `ensureIngested()`: a no-op once `store.ingested` is set; a pure flag
set when the documents directory is absent; otherwise one ingestion pass
over the `.pdf`/`.txt` files, setting the flag only on success (a thrown
error leaves `ingested` false and keeps the vectors pushed so far). -/
def ensureIngestedE (env : Env) (st : Store) : Except String Unit × Store :=
  if st.ingested then (.ok (), st)
  else if env.docsExists = false then (.ok (), { st with ingested := true })
  else
    match ingestFiles env (env.files.filter (fun f => hasDocExt f.1)) st with
    | (.ok _, st') => (.ok (), { st' with ingested := true })
    | (.error e, st') => (.error e, st')

/-! ### Retrieval (chatbot.js lines 104–111) -/

/-- Scoring plus the sort `scored.sort((a, b) => b.score - a.score)`
(descending by score), modelled with `mergeSort` under the matching
total order. -/
noncomputable def scoredSort (q : List ℚ) (vs : List EmbChunk) : List Scored :=
  (vs.map (fun v => ⟨v.embedding, v.text, v.source, cosine q v.embedding⟩ : EmbChunk → Scored)
    |>.mergeSort (fun a b => decide (b.score ≤ a.score)))

/-- `retrieveTopK(query, k = 5)`: lazily ingest, short-circuit on an empty
store, embed the query, score every stored vector, sort descending,
return the first `k`. -/
noncomputable def retrieveTopKE (env : Env) (st : Store) (query : String)
    (k : Nat := 5) : Except String (List Scored) × Store :=
  let ing := if st.ingested then (.ok (), st) else ensureIngestedE env st
  match ing with
  | (.error e, st') => (.error e, st')
  | (.ok _, st') =>
    if st'.vectors = [] then (.ok [], st')
    else
      match embedRawE env query "RETRIEVAL_QUERY" with
      | .error e => (.error e, st')
      | .ok q => (.ok ((scoredSort q st'.vectors).take k), st')

/-! ### Prompt assembly, generation and history update
(chatbot.js lines 113–150) -/

/-- The bounded in-memory history update
`[...turns, {user}, {bot}].slice(-MAX_TURNS)`. -/
def appendBounded (turns : List Turn) (message reply : String) : List Turn :=
  takeLast MAX_TURNS (turns ++ [⟨"user", message⟩, ⟨"bot", reply⟩])

noncomputable def generateWithContextE (env : Env) (st : Store)
    (message sessionId : String) : Except String String × Store :=
  match retrieveTopKE env st message 5 with
  | (.error e, st') => (.error e, st')
  | (.ok top, st') =>
    let context := String.intercalate "\n---\n"
      (top.map (fun t => "[" ++ t.source ++ "] " ++ t.text))
    let turns := (st'.history.lookup sessionId).getD []
    let historyText := String.intercalate "\n"
      ((takeLast 10 turns).map
        (fun t => (if t.role = "user" then "User" else "Bot") ++ ": " ++ t.text))
    let prompt := "SYSTEM:\n" ++ SYSTEM_PROMPT ++ "\n\nCONTEXT:\n" ++
      (if context = "" then "(no context)" else context) ++ "\n\nHISTORY:\n" ++
      (if historyText = "" then "(none)" else historyText) ++ "\n\nUSER:\n" ++ message
    match env.genApi prompt with
    | .error e => (.error ("Gemini generate error " ++ e), st')
    | .ok json =>
      let reply := extractReply json
      (.ok reply,
        { st' with history := setKey st'.history sessionId (appendBounded turns message reply) })

/-! ### The Netlify handler (chatbot.js lines 153–175) -/

/-- The body of the `try` block: early returns become `.ok` responses,
thrown errors become `.error`; the store resulting from the partial
execution is returned alongside (mutations survive a throw). -/
noncomputable def handlerTry (env : Env) (st : Store) (ev : Event) :
    Except String HttpResponse × Store :=
  if ev.httpMethod ≠ "POST" then (.ok ⟨405, .text "Method Not Allowed"⟩, st)
  else if env.hasApiKey = false then
    (.ok ⟨500, .jsonError "Missing GEMINI_API_KEY"⟩, st)
  else
    match ev.body with
    | .malformed => (.error "JSON parse error", st)
    | .fields message sessionId =>
      if falsy message || falsy sessionId then
        (.ok ⟨400, .jsonError "Missing message or sessionId"⟩, st)
      else
        match ensureIngestedE env st with
        | (.error e, st') => (.error e, st')
        | (.ok _, st') =>
          match generateWithContextE env st' (message.getD "") (sessionId.getD "") with
          | (.error e, st'') => (.error e, st'')
          | (.ok reply, st'') => (.ok ⟨200, .jsonReply reply⟩, st'')

/-- `exports.handler`: the `try/catch` — any thrown error is logged and
converted to the uniform 500 response with the fixed generic body. -/
noncomputable def handler (env : Env) (st : Store) (ev : Event) :
    HttpResponse × Store :=
  match handlerTry env st ev with
  | (.ok r, st') => (r, st')
  | (.error _, st') => (⟨500, .jsonError "Failed to process request."⟩, st')

/-! ### Firestore history store (firestore.js, both variants)

Firestore's `chat_history` collection becomes an association list from
session id to the `messages` array.  Both `saveHistory` variants
(transactional and plain read-then-write) create `{ messages: [entry] }`
when the document is absent and `arrayUnion` the entry otherwise;
`arrayUnion` does not add an element already present, which the model
mirrors.  `serverTimestamp()` is the oracle argument `now`. -/

structure FsEntry where
  user : String
  bot : String
  timestamp : Nat
deriving DecidableEq

def saveHistoryFS (db : List (String × List FsEntry))
    (sessionId userMessage botReply : String) (now : Nat) :
    List (String × List FsEntry) :=
  let newEntry : FsEntry := ⟨userMessage, botReply, now⟩
  match db.lookup sessionId with
  | none => setKey db sessionId [newEntry]
  | some msgs =>
    setKey db sessionId (if newEntry ∈ msgs then msgs else msgs ++ [newEntry])

/-- `getHistory(sessionId)`: `doc.exists ? doc.data().messages : []`. -/
def getHistoryFS (db : List (String × List FsEntry)) (sessionId : String) :
    List FsEntry :=
  (db.lookup sessionId).getD []

/-! ### Sample environments used by witnesses and counterexamples -/

/-- An environment with the API key configured, no documents directory and
unavailable external services. -/
def envDown : Env :=
  ⟨true, false, [], fun _ _ => .error "down", fun _ => .error "down"⟩

/-- An environment whose generation API answers HTTP 503 (the fetch is
not ok, so the code throws with the status and body in the message). -/
def env503 : Env :=
  ⟨true, false, [], fun _ _ => .ok [1], fun _ => .error "503: Service Unavailable"⟩

def emptyStore : Store := ⟨false, [], []⟩

/-! ### Claim C4: retrieval bounds and ordering -/

theorem scoredSort_sorted (q : List ℚ) (vs : List EmbChunk) :
    List.Sorted (fun a b : Scored => b.score ≤ a.score) (scoredSort q vs) := by
  unfold scoredSort
  have h := @List.sorted_mergeSort Scored
    (fun a b : Scored => decide (b.score ≤ a.score))
    (fun a b c h1 h2 => by
      simp only [decide_eq_true_eq] at *
      exact le_trans h2 h1)
    (fun a b => by
      simp only [Bool.or_eq_true, decide_eq_true_eq]
      exact Or.symm (le_total a.score b.score))
    (vs.map (fun v => ⟨v.embedding, v.text, v.source, cosine q v.embedding⟩))
  exact h.imp (fun hab => by simpa using hab)

theorem scoredSort_length (q : List ℚ) (vs : List EmbChunk) :
    (scoredSort q vs).length = vs.length := by
  unfold scoredSort
  rw [List.length_mergeSort, List.length_map]

/-- C4: with ingestion already done, `retrieveTopK` on an empty store
returns the empty list (before even embedding the query); when the query
embeds successfully it returns the first `k` of the descending-sorted
scored records, so the result count is `min k (store size)` — exactly the
store size when fewer than `k` vectors are stored, and never more than the
store size — and the result is sorted by non-increasing score. -/
theorem retrieveTopK_bounds_sorted (env : Env) (st : Store) (query : String)
    (k : Nat) (hing : st.ingested = true) :
    (st.vectors = [] → retrieveTopKE env st query k = (.ok [], st)) ∧
    (∀ q, embedRawE env query "RETRIEVAL_QUERY" = .ok q →
      retrieveTopKE env st query k = (.ok ((scoredSort q st.vectors).take k), st) ∧
      ((scoredSort q st.vectors).take k).length = min k st.vectors.length ∧
      List.Sorted (fun a b : Scored => b.score ≤ a.score)
        ((scoredSort q st.vectors).take k)) := by
  constructor
  · intro hv
    simp [retrieveTopKE, hing, hv]
  · intro q hq
    refine ⟨?_, ?_, ?_⟩
    · by_cases hv : st.vectors = []
      · simp [retrieveTopKE, hing, hv, scoredSort]
      · simp [retrieveTopKE, hing, hv, hq]
    · rw [List.length_take, scoredSort_length]
    · exact List.Pairwise.sublist (List.take_sublist k _) (scoredSort_sorted q st.vectors)

theorem retrieveTopK_bounds_sorted_witness :
    ((⟨true, [], []⟩ : Store).ingested = true) ∧
    retrieveTopKE envDown ⟨true, [], []⟩ "q" 5 = (.ok [], ⟨true, [], []⟩) :=
  ⟨rfl, (retrieveTopK_bounds_sorted envDown ⟨true, [], []⟩ "q" 5 rfl).1 rfl⟩

/-! ### Claim C6: ingestion idempotence -/

/-- Sequencing two calls of `ensureIngested()` the way `await` does: if
the first throws, the second never runs. -/
noncomputable def ensureIngestedTwice (env : Env) (st : Store) :
    Except String Unit × Store :=
  match ensureIngestedE env st with
  | (.error e, st') => (.error e, st')
  | (.ok _, st') => ensureIngestedE env st'

theorem ensureIngestedE_noop (env : Env) (st : Store) (h : st.ingested = true) :
    ensureIngestedE env st = (.ok (), st) := by
  unfold ensureIngestedE
  rw [if_pos h]

theorem ensureIngestedE_sets_flag (env : Env) (st st' : Store) (u : Unit)
    (h : ensureIngestedE env st = (.ok u, st')) : st'.ingested = true := by
  unfold ensureIngestedE at h
  by_cases h1 : st.ingested = true
  · rw [if_pos h1] at h
    have h2 := congrArg Prod.snd h
    simp only [] at h2
    rw [← h2]
    exact h1
  · rw [if_neg h1] at h
    by_cases h2 : env.docsExists = false
    · rw [if_pos h2] at h
      have h3 := congrArg Prod.snd h
      simp only [] at h3
      rw [← h3]
    · rw [if_neg h2] at h
      rcases hI : ingestFiles env (env.files.filter (fun f => hasDocExt f.1)) st with ⟨x, st''⟩
      rw [hI] at h
      cases x with
      | ok v =>
        have h3 := congrArg Prod.snd h
        simp only [] at h3
        rw [← h3]
      | error e =>
        have h3 := congrArg Prod.fst h
        simp at h3

/-- C6: running `ensureIngested()` twice in sequence leaves exactly the
store of a single run (a successful first run sets the flag, making the
second a no-op; a failing first run aborts the sequence the way a thrown
exception does); and with the documents directory absent, the call on the
fresh store is an error-free no-op that only sets the flag, leaving the
vector store empty. -/
theorem ensureIngested_idempotent_and_noop (env : Env) (st : Store) :
    ensureIngestedTwice env st = ensureIngestedE env st ∧
    (env.docsExists = false →
      ensureIngestedE env ⟨false, [], []⟩ = (.ok (), ⟨true, [], []⟩)) := by
  constructor
  · unfold ensureIngestedTwice
    rcases h1 : ensureIngestedE env st with ⟨x, st'⟩
    cases x with
    | error e => simp
    | ok u =>
      have hflag := ensureIngestedE_sets_flag env st st' u h1
      simp only []
      rw [ensureIngestedE_noop env st' hflag]
  · intro h
    unfold ensureIngestedE
    simp [h]

theorem ensureIngested_idempotent_and_noop_witness :
    ensureIngestedTwice envDown emptyStore = ensureIngestedE envDown emptyStore ∧
    (envDown.docsExists = false →
      ensureIngestedE envDown ⟨false, [], []⟩ = (.ok (), ⟨true, [], []⟩)) :=
  ensureIngested_idempotent_and_noop envDown emptyStore

/-! ### Claim C7: history truncation -/

theorem takeLast_append_takeLast {α : Type} (n : Nat) (a b : List α) :
    takeLast n (takeLast n a ++ b) = takeLast n (a ++ b) := by
  unfold takeLast
  rcases le_or_lt n a.length with hn | hn
  · have ha' : (a.drop (a.length - n)).length = n := by
      simp only [List.length_drop]; omega
    rcases le_or_lt n b.length with hb | hb
    · have e1 : (a.drop (a.length - n) ++ b).length - n = n + (b.length - n) := by
        simp only [List.length_append, ha']; omega
      have e2 : (a ++ b).length - n = a.length + (b.length - n) := by
        simp only [List.length_append]; omega
      rw [e1, e2]
      rw [show n + (b.length - n) = (a.drop (a.length - n)).length + (b.length - n) by rw [ha']]
      rw [List.drop_append, List.drop_append]
    · have e1 : (a.drop (a.length - n) ++ b).length - n = b.length := by
        simp only [List.length_append, ha']; omega
      have e2 : (a ++ b).length - n = a.length - n + b.length := by
        simp only [List.length_append]; omega
      rw [e1, e2]
      rw [List.drop_append_of_le_length (by omega : b.length ≤ (a.drop (a.length - n)).length)]
      rw [List.drop_append_of_le_length (by omega : a.length - n + b.length ≤ a.length)]
      rw [List.drop_drop]
  · have h0 : a.length - n = 0 := by omega
    rw [h0, List.drop_zero]

theorem takeLast_length_le {α : Type} (n : Nat) (l : List α) :
    (takeLast n l).length ≤ n := by
  simp only [takeLast, List.length_drop]
  omega

/-- A whole conversation: each request appends its user/bot pair through
the bounded update of `generateWithContext` (line 147 of chatbot.js),
starting from the fresh session (`store.history.get(sessionId) || []`). -/
def runHistory (ps : List (String × String)) : List Turn :=
  ps.foldl (fun h p => appendBounded h p.1 p.2) []

/-- All turns ever appended, in order, as flat `Turn`s. -/
def allTurns (ps : List (String × String)) : List Turn :=
  (ps.map (fun p => [⟨"user", p.1⟩, ⟨"bot", p.2⟩])).flatten

theorem runHistory_foldl :
    ∀ (ps : List (String × String)) (a : List Turn),
      ps.foldl (fun h p => appendBounded h p.1 p.2) (takeLast MAX_TURNS a)
        = takeLast MAX_TURNS (a ++ allTurns ps) := by
  intro ps
  induction ps with
  | nil =>
    intro a
    simp [allTurns]
  | cons p ps ih =>
    intro a
    simp only [List.foldl_cons]
    have h1 : appendBounded (takeLast MAX_TURNS a) p.1 p.2
        = takeLast MAX_TURNS (a ++ [⟨"user", p.1⟩, ⟨"bot", p.2⟩]) := by
      unfold appendBounded
      rw [takeLast_append_takeLast]
    rw [h1, ih]
    simp [allTurns, List.append_assoc]

/-- C7 (amended): for the in-memory history of chatbot.js, after ANY
sequence of request/reply pairs the stored list never exceeds the
`MAX_TURNS = 40` cap and is always exactly the most recently appended
turns in their original order (`slice(-40)` of the full transcript).  The
Firestore `saveHistory` of firestore.js, which the claim also cites, has
no cap — see the counterexample. -/
theorem history_truncation (ps : List (String × String)) :
    (runHistory ps).length ≤ MAX_TURNS ∧
    runHistory ps = takeLast MAX_TURNS (allTurns ps) := by
  have h : runHistory ps = takeLast MAX_TURNS (allTurns ps) := by
    unfold runHistory
    rw [show ([] : List Turn) = takeLast MAX_TURNS [] from rfl, runHistory_foldl ps []]
    rw [List.nil_append]
  exact ⟨h ▸ takeLast_length_le _ _, h⟩

/-- The Firestore store after `n` saves to session "s" (with distinct
server timestamps, as in reality). -/
def fsAfter (n : Nat) : List (String × List FsEntry) :=
  (List.range n).foldl (fun db i => saveHistoryFS db "s" "hi" "yo" i) []

/-- C7, counterexample.  The claim also cites `saveHistory` of
firestore.js, but that function never truncates: after 21 saves the
stored `messages` array has 21 user/bot pairs — 42 turns, exceeding the
40-turn cap the claim asserts is never exceeded. -/
theorem firestore_no_cap_counterexample :
    (getHistoryFS (fsAfter 21) "s").length = 21 ∧ MAX_TURNS < 21 * 2 := by
  refine ⟨by decide, by decide⟩

/-! ### Claim C8: generator-client reply extraction -/

/-- Modelled from the spec's words for the refinement comparison: "the
concatenation of all text fragments of the response's first candidate". -/
def specFirstCandidateText (r : GenResponse) : String :=
  String.join ((firstParts r).map (fun p => p.text.getD ""))

theorem string_foldl_append (l : List String) :
    ∀ acc : String, l.foldl (fun a b => a ++ b) acc = acc ++ String.join l := by
  induction l with
  | nil =>
    intro acc
    simp [String.join]
  | cons s l ih =>
    intro acc
    show l.foldl (fun a b => a ++ b) (acc ++ s) = _
    rw [ih (acc ++ s)]
    show _ = acc ++ l.foldl (fun a b => a ++ b) ("" ++ s)
    rw [ih ("" ++ s)]
    simp [String.append_assoc]

theorem join_eq_empty_of_all_empty (l : List String) (h : ∀ s ∈ l, s = "") :
    String.join l = "" := by
  induction l with
  | nil => rfl
  | cons s l ih =>
    have hs : s = "" := h s (List.mem_cons_self s l)
    have hjoin : String.join (s :: l) = s ++ String.join l := by
      show l.foldl (fun a b => a ++ b) ("" ++ s) = _
      rw [string_foldl_append l ("" ++ s)]
      simp
    rw [hjoin, hs, ih (fun x hx => h x (List.mem_cons_of_mem s hx))]
    rfl

/-- C8, counterexample.  In chatbot.js the reply is the TRIMMED
concatenation: with a single fragment " hi " the claim's "concatenation of
all text fragments" is " hi " but the code replies "hi".  And the unnamed
variant (also cited by the claim) only reads the FIRST fragment, with a
different fallback: on fragments ["", "x"] the concatenation is "x", yet
it replies "I couldn't generate a response.". -/
theorem reply_extraction_counterexample :
    extractReply ⟨some [⟨some ⟨some [⟨some " hi "⟩]⟩⟩]⟩ = "hi" ∧
    specFirstCandidateText ⟨some [⟨some ⟨some [⟨some " hi "⟩]⟩⟩]⟩ = " hi " ∧
    extractReply ⟨some [⟨some ⟨some [⟨some " hi "⟩]⟩⟩]⟩ ≠
      specFirstCandidateText ⟨some [⟨some ⟨some [⟨some " hi "⟩]⟩⟩]⟩ ∧
    specFirstCandidateText ⟨some [⟨some ⟨some [⟨some ""⟩, ⟨some "x"⟩]⟩⟩]⟩ = "x" ∧
    part000Extract ⟨some [⟨some ⟨some [⟨some ""⟩, ⟨some "x"⟩]⟩⟩]⟩ =
      "I couldn't generate a response." := by
  refine ⟨by decide, by decide, by decide, by decide, by decide⟩

/-- C8 (amended): in chatbot.js the reply equals the whitespace-TRIMMED
concatenation of all text fragments of the first candidate, with the
fixed fallback "No reply." exactly when that trimmed concatenation is
empty; in particular, when every fragment of the first candidate is empty
or absent (no text present), the reply is "No reply.".  (The unnamed
variant instead returns only the first fragment with the fallback
"I couldn't generate a response." — see the counterexample.) -/
theorem reply_extraction_contract (r : GenResponse) :
    (extractReply r =
      if trimStr (specFirstCandidateText r) = "" then "No reply."
      else trimStr (specFirstCandidateText r)) ∧
    ((∀ p ∈ firstParts r, p.text.getD "" = "") → extractReply r = "No reply.") := by
  constructor
  · rfl
  · intro hall
    have hjoin : specFirstCandidateText r = "" := by
      apply join_eq_empty_of_all_empty
      intro s hs
      rcases List.mem_map.mp hs with ⟨p, hp, rfl⟩
      exact hall p hp
    show (if trimStr (specFirstCandidateText r) = "" then "No reply."
      else trimStr (specFirstCandidateText r)) = "No reply."
    rw [hjoin]
    rfl

theorem reply_extraction_contract_witness :
    (∀ p ∈ firstParts (⟨some [⟨some ⟨some [⟨some ""⟩]⟩⟩]⟩ : GenResponse),
      p.text.getD "" = "") ∧
    extractReply (⟨some [⟨some ⟨some [⟨some ""⟩]⟩⟩]⟩ : GenResponse) = "No reply." :=
  ⟨by decide, (reply_extraction_contract ⟨some [⟨some ⟨some [⟨some ""⟩]⟩⟩]⟩).2 (by decide)⟩

/-! ### Claim C1: request validation -/

/-- C1, counterexample.  The claim says `sessionId` is optional and 400 is
returned only when `message` is missing; but line 163 of chatbot.js is
`if (!message || !sessionId)`, so a POST with the non-empty message
"hello" and no `sessionId` is rejected with 400 (not answered with 200). -/
theorem handler_sessionId_optional_counterexample :
    (handler envDown ⟨false, [], []⟩ ⟨"POST", .fields (some "hello") none⟩).1
        = ⟨400, .jsonError "Missing message or sessionId"⟩ ∧
    (handler envDown ⟨false, [], []⟩ ⟨"POST", .fields (some "hello") none⟩).1.statusCode
        ≠ 200 := by
  have h : (handler envDown ⟨false, [], []⟩ ⟨"POST", .fields (some "hello") none⟩).1
      = ⟨400, .jsonError "Missing message or sessionId"⟩ := rfl
  refine ⟨h, ?_⟩
  rw [h]
  decide

/-- C1 (amended): both `message` and `sessionId` are required.  For a POST
with the API key configured and a parsed JSON body, the handler answers
400 (body `Missing message or sessionId`) exactly when `message` or
`sessionId` is missing or empty; with both present the request proceeds
to processing (200 with `{ reply }` on success, 500 on failure), never
400. -/
theorem handler_requires_both_fields (env : Env) (st : Store)
    (m sid : Option String) (hk : env.hasApiKey = true) :
    (handler env st ⟨"POST", .fields m sid⟩).1.statusCode = 400 ↔
      (falsy m || falsy sid) = true := by
  by_cases hfal : (falsy m || falsy sid) = true
  · simp [handler, handlerTry, hk, hfal]
  · simp only [Bool.not_eq_true] at hfal
    rcases hE : ensureIngestedE env st with ⟨x, st'⟩
    cases x with
    | error e => simp [handler, handlerTry, hk, hfal, hE]
    | ok u =>
      rcases hG : generateWithContextE env st' (m.getD "") (sid.getD "") with ⟨y, st''⟩
      cases y with
      | error e => simp [handler, handlerTry, hk, hfal, hE, hG]
      | ok r => simp [handler, handlerTry, hk, hfal, hE, hG]

theorem handler_requires_both_fields_witness :
    envDown.hasApiKey = true ∧
    (handler envDown emptyStore ⟨"POST", .fields (some "hello") none⟩).1.statusCode = 400 :=
  ⟨rfl, (handler_requires_both_fields envDown emptyStore (some "hello") none rfl).mpr rfl⟩

/-! ### Claim C9: uniform failure handling -/

/-- C9: whatever failure the `try` block throws — a rejected generation
fetch (e.g. HTTP 503), a rejected embedding fetch, a JSON parse error —
the `catch` converts it to the single uniform 500 response whose body is
the fixed string "Failed to process request.": the thrown detail `e` does
not appear in the response (the body is a constant independent of `e`),
and no reply, partial or otherwise, is produced. -/
theorem handler_uniform_500_on_failure (env : Env) (st : Store) (ev : Event)
    (e : String) (h : (handlerTry env st ev).1 = .error e) :
    (handler env st ev).1 = ⟨500, .jsonError "Failed to process request."⟩ := by
  unfold handler
  cases hT : handlerTry env st ev with
  | mk x st' =>
    cases x with
    | error e' => simp
    | ok r =>
      rw [hT] at h
      simp at h

theorem handler_uniform_500_on_failure_witness :
    (handlerTry env503 emptyStore ⟨"POST", .fields (some "hello") (some "s1")⟩).1
        = .error "Gemini generate error 503: Service Unavailable" ∧
    (handler env503 emptyStore ⟨"POST", .fields (some "hello") (some "s1")⟩).1
        = ⟨500, .jsonError "Failed to process request."⟩ :=
  ⟨rfl, handler_uniform_500_on_failure env503 emptyStore
    ⟨"POST", .fields (some "hello") (some "s1")⟩
    "Gemini generate error 503: Service Unavailable" rfl⟩

/-! ### Claim C10: reading a never-written session -/

/-- C10: `getHistory(sessionId)` on a session whose document does not
exist returns the empty array instead of failing
(`doc.exists ? doc.data().messages : []`, identical in both copies of
firestore.js). -/
theorem getHistory_missing_session (db : List (String × List FsEntry))
    (sid : String) (h : db.lookup sid = none) :
    getHistoryFS db sid = [] := by
  unfold getHistoryFS
  rw [h]
  rfl

theorem getHistory_missing_session_witness :
    (([("other", [⟨"u", "b", 0⟩])] : List (String × List FsEntry)).lookup "nope" = none) ∧
    getHistoryFS [("other", [⟨"u", "b", 0⟩])] "nope" = [] :=
  ⟨by decide, getHistory_missing_session [("other", [⟨"u", "b", 0⟩])] "nope" (by decide)⟩
